import Mathlib

/-!
Verification of the daily planning and mobile-inventory core of the
`control_rutas` repository, as a shallow embedding in Lean 4.

Conventions of the embedding:
* Django `DecimalField` quantities are modelled as `ℚ`; `IntegerField` as `Int`;
  dates and timestamps as `Nat` (a day or instant number); primary keys as `Nat`.
* A nullable field (`null=True`) is an `Option`.
* A view that mutates rows is a function from the relevant store to
  `Except String` (message) or to a pair (new store, outcome); Django's
  `transaction.atomic` means a request that errors commits nothing, which the
  functional embedding reflects by returning an error without a new store.
* Form validation (`is_valid`) runs before any row is saved, exactly as in the
  Django request cycle: all `clean` checks read the pre-request database state.
-/

namespace ControlRutas

/-! ### camiones/models.py — CuadreDiarioDetalle and camiones/views.py — cuadre_diario_finalizar -/

/-- One `CuadreDiarioDetalle` row (reconciliation line). -/
structure CuadreDetalle where
  producto : Nat
  cantidad_cargada : ℚ
  cantidad_vendida : ℚ
  cantidad_esperada : ℚ
  cantidad_real_retorno : ℚ
  diferencia : ℚ
  observaciones : String
deriving DecidableEq

/-- `CuadreDiarioDetalle.save` (camiones/models.py lines 308-311): recomputes
`diferencia = cantidad_real_retorno - cantidad_esperada` on every save. -/
def cuadreDetalleSave (d : CuadreDetalle) : CuadreDetalle :=
  { d with diferencia := d.cantidad_real_retorno - d.cantidad_esperada }

/-- `cuadre_diario_finalizar` (camiones/views.py lines 489-513): the resulting
`estado` is `con_diferencia` when some line has nonzero `diferencia`, else
`cuadrado`. -/
def cuadreFinalizarEstado (detalles : List CuadreDetalle) : String :=
  if detalles.any (fun d => d.diferencia != 0) then "con_diferencia" else "cuadrado"

/-! ### asignaciones/models.py — Asignacion.clean (overlap validation) -/

/-- The date range of an `Asignacion`: start date and optional end date
(`fecha_fin = none` means an open-ended assignment). -/
structure RangoAsignacion where
  fecha_inicio : Nat
  fecha_fin : Option Nat
deriving DecidableEq

/-- The overlap test of `Asignacion.clean` (asignaciones/models.py lines
97-113) against one existing assignment for the same (ruta, vendedor) pair:
if the existing row has no `fecha_fin` the new range conflicts when it is
itself open-ended or ends on or after the existing start; otherwise it
conflicts when it starts on or before the existing end and (is open-ended or
ends on or after the existing start). `AsignacionForm.clean`
(asignaciones/forms.py lines 143-161) implements the same test. -/
def conflictoConExistente (existente nueva : RangoAsignacion) : Bool :=
  match existente.fecha_fin with
  | none =>
    match nueva.fecha_fin with
    | none => true
    | some f2 => decide (existente.fecha_inicio ≤ f2)
  | some f1 =>
    decide (nueva.fecha_inicio ≤ f1) &&
      (match nueva.fecha_fin with
       | none => true
       | some f2 => decide (existente.fecha_inicio ≤ f2))

/-- `Asignacion.clean` (asignaciones/models.py lines 73-113), with the
vendedor-role check abstracted to a boolean and the interpolated error
messages condensed to fixed strings. The checks run in source order: role,
date order, then the overlap loop over the existing assignments of the same
(ruta, vendedor) pair. -/
def asignacionClean (rolVendedor : Bool) (nueva : RangoAsignacion)
    (existentes : List RangoAsignacion) : Except String Unit :=
  if rolVendedor = false then
    .error "El usuario seleccionado debe tener rol de vendedor."
  else if (match nueva.fecha_fin with
           | some f => decide (f < nueva.fecha_inicio)
           | none => false) then
    .error "La fecha de fin debe ser posterior a la fecha de inicio."
  else
    match existentes.find? (fun e => conflictoConExistente e nueva) with
    | some _ => .error "Ya existe una asignación de esta ruta para este vendedor."
    | none => .ok ()

/-- Modelled from the spec: an optional end date read as a point of `ℕ∞`,
`none` counting as `+∞`. -/
def finOInfinito (e : Option Nat) : WithTop Nat :=
  e.elim ⊤ (fun n => (n : WithTop Nat))

/-- Modelled from the spec: two ranges `[s1, e1?]` and `[s2, e2?]` overlap iff
`s1 ≤ (e2 or +∞)` and `s2 ≤ (e1 or +∞)`. -/
def seSolapanSpec (r1 r2 : RangoAsignacion) : Prop :=
  (r1.fecha_inicio : WithTop Nat) ≤ finOInfinito r2.fecha_fin ∧
  (r2.fecha_inicio : WithTop Nat) ≤ finOInfinito r1.fecha_fin

theorem conflicto_iff_solapan (existente nueva : RangoAsignacion) :
    conflictoConExistente existente nueva = true ↔ seSolapanSpec existente nueva := by
  unfold conflictoConExistente seSolapanSpec finOInfinito
  cases h1 : existente.fecha_fin with
  | none =>
    cases h2 : nueva.fecha_fin with
    | none => simp [Option.elim]
    | some f2 => simp [Option.elim, Nat.cast_le]
  | some f1 =>
    cases h2 : nueva.fecha_fin with
    | none => simp [Option.elim, Nat.cast_le]
    | some f2 => simp [Option.elim, Nat.cast_le, and_comm]

/-- C3: creating a second assignment on the same (route, salesperson) pair
passes `Asignacion.clean` iff its date range overlaps no existing one, where
ranges `[s1,e1?]` and `[s2,e2?]` overlap iff `s1 ≤ (e2 or +∞)` and
`s2 ≤ (e1 or +∞)` (open-ended end = `+∞`); and the code's pairwise conflict
test coincides exactly with that overlap rule. -/
theorem asignacion_solape_spec (rolV : Bool) (nueva : RangoAsignacion)
    (existentes : List RangoAsignacion)
    (hrol : rolV = true)
    (hfechas : ∀ f ∈ nueva.fecha_fin, nueva.fecha_inicio ≤ f) :
    (asignacionClean rolV nueva existentes = .ok () ↔
      ∀ e ∈ existentes, ¬ seSolapanSpec e nueva)
    ∧ (∀ e, conflictoConExistente e nueva = true ↔ seSolapanSpec e nueva) := by
  subst hrol
  constructor
  · unfold asignacionClean
    have hdate : (match nueva.fecha_fin with
        | some f => decide (f < nueva.fecha_inicio)
        | none => false) = false := by
      cases h : nueva.fecha_fin with
      | none => rfl
      | some f =>
        simp only [decide_eq_false_iff_not, not_lt]
        exact hfechas f (by simp [h])
    rw [hdate]
    simp only [if_neg (by simp : ¬(true = false)), if_neg (by simp : ¬(false = true))]
    cases hfind : existentes.find? (fun e => conflictoConExistente e nueva) with
    | none =>
      simp only [List.find?_eq_none] at hfind
      constructor
      · intro _ e he hsol
        exact hfind e he ((conflicto_iff_solapan e nueva).mpr hsol)
      · intro _; rfl
    | some e0 =>
      constructor
      · intro h; cases h
      · intro hno
        have he0 := List.find?_some hfind
        have hmem := List.mem_of_find?_eq_some hfind
        exact absurd ((conflicto_iff_solapan e0 nueva).mp he0) (hno e0 hmem)
  · intro e; exact conflicto_iff_solapan e nueva

theorem asignacion_solape_spec_witness :
    asignacionClean true ⟨5, some 10⟩ [⟨0, some 4⟩] = .ok ()
    ∧ (conflictoConExistente ⟨0, some 12⟩ ⟨5, some 10⟩ = true ↔
        seSolapanSpec ⟨0, some 12⟩ ⟨5, some 10⟩) :=
  ⟨(asignacion_solape_spec true ⟨5, some 10⟩ [⟨0, some 4⟩] rfl
      (fun f hf => by
        rw [Option.mem_def, Option.some.injEq] at hf
        subst hf; decide)).1.mpr
    (by
      intro e he
      rw [List.mem_singleton] at he
      subst he
      rw [← conflicto_iff_solapan]
      decide),
   (asignacion_solape_spec true ⟨5, some 10⟩ [⟨0, some 4⟩] rfl
      (fun f hf => by
        rw [Option.mem_def, Option.some.injEq] at hf
        subst hf; decide)).2 ⟨0, some 12⟩⟩

/-- C5: after any save the stored `diferencia` of a reconciliation line equals
`cantidad_real_retorno - cantidad_esperada`; finalizing sets the estado to
`cuadrado` iff every line has `diferencia = 0` and to `con_diferencia` iff
some line has a nonzero `diferencia`. -/
theorem cuadre_diferencia_estado_spec (d : CuadreDetalle) (detalles : List CuadreDetalle) :
    (cuadreDetalleSave d).diferencia = d.cantidad_real_retorno - d.cantidad_esperada
    ∧ (cuadreFinalizarEstado detalles = "cuadrado" ↔ ∀ x ∈ detalles, x.diferencia = 0)
    ∧ (cuadreFinalizarEstado detalles = "con_diferencia" ↔ ∃ x ∈ detalles, x.diferencia ≠ 0) := by
  refine ⟨rfl, ?_, ?_⟩
  · unfold cuadreFinalizarEstado
    by_cases h : (detalles.any (fun d => d.diferencia != 0)) = true
    · rw [if_pos h]
      simp only [List.any_eq_true, bne_iff_ne, ne_eq] at h
      obtain ⟨x, hx, hne⟩ := h
      constructor
      · intro hs; exact absurd hs (by decide)
      · intro hall; exact absurd (hall x hx) hne
    · rw [if_neg h]
      simp only [List.any_eq_true, bne_iff_ne, ne_eq] at h
      push_neg at h
      exact ⟨fun _ => h, fun _ => rfl⟩
  · unfold cuadreFinalizarEstado
    by_cases h : (detalles.any (fun d => d.diferencia != 0)) = true
    · rw [if_pos h]
      simp only [List.any_eq_true, bne_iff_ne, ne_eq] at h
      exact ⟨fun _ => h, fun _ => rfl⟩
    · rw [if_neg h]
      simp only [List.any_eq_true, bne_iff_ne, ne_eq] at h
      push_neg at h
      constructor
      · intro hs; exact absurd hs (by decide)
      · rintro ⟨x, hx, hne⟩; exact absurd (h x hx) hne

/-! ### camiones/models.py — CargaCamion, CargaCamionDetalle; ventas/forms.py — DetalleVentaForm; ventas/views.py — venta_crear -/

/-- One `CargaCamionDetalle` row (truck load line). `unique_together
['carga_camion', 'producto']` makes `producto` a key within one load. -/
structure CargaCamionDetalle where
  producto : Nat
  cantidad_cargada : ℚ
  cantidad_actual : ℚ
deriving DecidableEq

/-- `CargaCamionDetalle.save` at creation (camiones/models.py lines 189-193):
`cantidad_actual` starts equal to `cantidad_cargada`. -/
def cargaDetalleNueva (producto : Nat) (cantidad_cargada : ℚ) : CargaCamionDetalle :=
  { producto := producto, cantidad_cargada := cantidad_cargada,
    cantidad_actual := cantidad_cargada }

/-- A `CargaCamion` row with its lines (the fields the core logic reads). -/
structure CargaCamion where
  cerrado : Bool
  detalles : List CargaCamionDetalle
deriving DecidableEq

/-- One line of the sale formset: `producto`, `cantidad` (an `IntegerField`
with `min_value=1` in `DetalleVentaForm`) and `precio_unitario`. -/
structure LineaVenta where
  producto : Nat
  cantidad : Int
  precio_unitario : ℚ
deriving DecidableEq

/-- One `DetalleVenta` row; `DetalleVenta.save` (ventas/models.py lines 72-75)
computes `subtotal = cantidad * precio_unitario` server-side. -/
structure DetalleVentaRow where
  producto : Nat
  cantidad : ℚ
  precio_unitario : ℚ
  subtotal : ℚ
deriving DecidableEq

/-- The created `Venta` with its detail rows and recomputed `total`. -/
structure VentaRow where
  detalles : List DetalleVentaRow
  total : ℚ
deriving DecidableEq

/-- `DetalleVentaForm` validation (ventas/forms.py lines 36-97) for one line,
against the pre-sale database state: the `producto` choice field is restricted
to products on the load with `cantidad_actual > 0` and `estado='activo'`;
`cantidad` must be an integer `≥ 1`; `clean` then rejects the line when
`cantidad` exceeds the matching load line's `cantidad_actual`, or when the
product has no line on the load. -/
def detalleVentaFormOk (carga : CargaCamion) (productosActivos : List Nat)
    (l : LineaVenta) : Bool :=
  (carga.detalles.any (fun d => d.producto == l.producto && decide (0 < d.cantidad_actual))) &&
  productosActivos.contains l.producto &&
  decide (1 ≤ l.cantidad) &&
  (match carga.detalles.find? (fun d => d.producto == l.producto) with
   | some d => decide ((l.cantidad : ℚ) ≤ d.cantidad_actual)
   | none => false)

/-- The stock decrement of `venta_crear` (ventas/views.py lines 134-139) for
one sale line: the load line whose `producto` matches loses `cantidad`.
(`producto` is unique within a load, so at most one row changes.) -/
def descontarStock (detalles : List CargaCamionDetalle) (producto : Nat)
    (cantidad : ℚ) : List CargaCamionDetalle :=
  detalles.map (fun d =>
    if d.producto = producto then { d with cantidad_actual := d.cantidad_actual - cantidad }
    else d)

/-- `venta_crear` (ventas/views.py lines 30-182) on a POST: permission check,
active-visit check, then formset validation of every line against the
pre-sale state; only if all lines validate does the atomic block run, creating
the `DetalleVenta` rows (subtotal computed in `DetalleVenta.save`) and
decrementing `cantidad_actual` line by line; `total` is recomputed from the
details. An error result commits nothing (`transaction.atomic`). Note that
the view never consults `carga.cerrado`. -/
def ventaCrear (esVendedor esAsignado : Bool) (horaLlegada horaSalida : Option Nat)
    (carga : CargaCamion) (productosActivos : List Nat) (lineas : List LineaVenta) :
    Except String (CargaCamion × VentaRow) :=
  if esVendedor = false then .error "Solo los vendedores pueden crear ventas."
  else if esAsignado = false then .error "No tienes permiso para crear ventas en esta visita."
  else if horaLlegada.isNone || horaSalida.isSome then
    .error "La visita debe estar activa para crear ventas."
  else if lineas.isEmpty || !(lineas.all (fun l => detalleVentaFormOk carga productosActivos l)) then
    .error "Por favor corrige los errores en el formulario."
  else
    let detallesVenta := lineas.map (fun l =>
      { producto := l.producto, cantidad := (l.cantidad : ℚ),
        precio_unitario := l.precio_unitario,
        subtotal := (l.cantidad : ℚ) * l.precio_unitario : DetalleVentaRow })
    let nuevosDetalles := lineas.foldl
      (fun acc l => descontarStock acc l.producto (l.cantidad : ℚ)) carga.detalles
    .ok ({ carga with detalles := nuevosDetalles },
         { detalles := detallesVenta, total := (detallesVenta.map (fun d => d.subtotal)).sum })

/-- Total quantity of product `p` across the lines of one sale. -/
def vendidoTotal (lineas : List LineaVenta) (p : Nat) : ℚ :=
  ((lineas.filter (fun l => l.producto == p)).map (fun l => (l.cantidad : ℚ))).sum

theorem vendidoTotal_nil (p : Nat) : vendidoTotal [] p = 0 := rfl

theorem vendidoTotal_cons (l : LineaVenta) (resto : List LineaVenta) (p : Nat) :
    vendidoTotal (l :: resto) p =
      (if l.producto = p then (l.cantidad : ℚ) else 0) + vendidoTotal resto p := by
  unfold vendidoTotal
  by_cases h : l.producto = p
  · rw [if_pos h, List.filter_cons_of_pos (by simp [h]), List.map_cons, List.sum_cons]
  · rw [if_neg h, List.filter_cons_of_neg (by simp [h]), zero_add]

theorem descontar_foldl (lineas : List LineaVenta) (detalles : List CargaCamionDetalle) :
    lineas.foldl (fun acc l => descontarStock acc l.producto (l.cantidad : ℚ)) detalles =
      detalles.map (fun d =>
        { d with cantidad_actual := d.cantidad_actual - vendidoTotal lineas d.producto }) := by
  induction lineas generalizing detalles with
  | nil =>
    simp only [List.foldl_nil, vendidoTotal_nil, sub_zero]
    symm
    apply List.map_id''
    intro d
    rfl
  | cons l resto ih =>
    rw [List.foldl_cons, ih, descontarStock, List.map_map]
    apply List.map_congr_left
    intro d _
    simp only [Function.comp_apply, vendidoTotal_cons]
    by_cases h : d.producto = l.producto
    · rw [if_pos h, if_pos h.symm]
      show ({ producto := d.producto, cantidad_cargada := d.cantidad_cargada,
              cantidad_actual := d.cantidad_actual - (l.cantidad : ℚ) - vendidoTotal resto d.producto }
            : CargaCamionDetalle) = _
      rw [CargaCamionDetalle.mk.injEq]
      exact ⟨rfl, rfl, by ring⟩
    · rw [if_neg h, if_neg (fun hh => h (Eq.symm hh)), zero_add]

theorem find_producto_nodup (detalles : List CargaCamionDetalle)
    (hnodup : (detalles.map CargaCamionDetalle.producto).Nodup)
    (d : CargaCamionDetalle) (hd : d ∈ detalles) (p : Nat) (hp : d.producto = p) :
    detalles.find? (fun x => x.producto == p) = some d := by
  induction detalles with
  | nil => cases hd
  | cons a resto ih =>
    rw [List.map_cons, List.nodup_cons] at hnodup
    rcases List.mem_cons.mp hd with h | h
    · subst h
      exact List.find?_cons_of_pos _ (by simp [hp])
    · have hne : a.producto ≠ p := by
        intro hap
        exact hnodup.1 (by
          rw [hap, ← hp]
          exact List.mem_map_of_mem _ h)
      rw [List.find?_cons_of_neg _ (by simp [hne])]
      exact ih hnodup.2 h

theorem ventaCrear_invalid_error (eV eA : Bool) (hl hs : Option Nat)
    (carga : CargaCamion) (activos : List Nat) (lineas : List LineaVenta)
    (hall : lineas.all (fun l => detalleVentaFormOk carga activos l) = false) :
    ∃ e, ventaCrear eV eA hl hs carga activos lineas = .error e := by
  unfold ventaCrear
  by_cases h1 : eV = false
  · rw [if_pos h1]; exact ⟨_, rfl⟩
  · rw [if_neg h1]
    by_cases h2 : eA = false
    · rw [if_pos h2]; exact ⟨_, rfl⟩
    · rw [if_neg h2]
      by_cases h3 : (hl.isNone || hs.isSome) = true
      · rw [if_pos h3]; exact ⟨_, rfl⟩
      · rw [if_neg h3, if_pos (by rw [hall]; simp)]
        exact ⟨_, rfl⟩

/-- C2: recording a sale is atomic over truck stock: if some requested line
exceeds the matching load line's `cantidad_actual`, or names a product with no
line on the load, the request fails with an error message (and, the atomic
block never having run, no `cantidad_actual` changes — an error result carries
no new state); on success every load line's `cantidad_actual` drops by exactly
the quantity sold of its product, the `DetalleVenta` rows are created with
server-computed subtotals, and the total is recomputed from them. -/
theorem venta_crear_atomica_spec (eV eA : Bool) (hl hs : Option Nat)
    (carga : CargaCamion) (activos : List Nat) (lineas : List LineaVenta)
    (hnodup : (carga.detalles.map CargaCamionDetalle.producto).Nodup) :
    ((∃ l ∈ lineas, ∃ d ∈ carga.detalles,
        d.producto = l.producto ∧ d.cantidad_actual < (l.cantidad : ℚ)) →
       ∃ e, ventaCrear eV eA hl hs carga activos lineas = .error e)
    ∧ ((∃ l ∈ lineas, ∀ d ∈ carga.detalles, d.producto ≠ l.producto) →
       ∃ e, ventaCrear eV eA hl hs carga activos lineas = .error e)
    ∧ (∀ carga1 venta, ventaCrear eV eA hl hs carga activos lineas = .ok (carga1, venta) →
        carga1.cerrado = carga.cerrado
        ∧ carga1.detalles = carga.detalles.map (fun d =>
            { d with cantidad_actual := d.cantidad_actual - vendidoTotal lineas d.producto })
        ∧ venta.detalles = lineas.map (fun l =>
            { producto := l.producto, cantidad := (l.cantidad : ℚ),
              precio_unitario := l.precio_unitario,
              subtotal := (l.cantidad : ℚ) * l.precio_unitario })
        ∧ venta.total = (venta.detalles.map (fun d => d.subtotal)).sum) := by
  refine ⟨?_, ?_, ?_⟩
  · rintro ⟨l, hlmem, d, hdmem, heq, hlt⟩
    apply ventaCrear_invalid_error
    have hform : detalleVentaFormOk carga activos l = false := by
      unfold detalleVentaFormOk
      rw [find_producto_nodup carga.detalles hnodup d hdmem l.producto heq]
      simp [not_le.mpr hlt]
    rcases h : lineas.all (fun l => detalleVentaFormOk carga activos l) with _ | _
    · rfl
    · rw [List.all_eq_true] at h
      exact absurd (h l hlmem) (by rw [hform]; decide)
  · rintro ⟨l, hlmem, hnone⟩
    apply ventaCrear_invalid_error
    have hform : detalleVentaFormOk carga activos l = false := by
      unfold detalleVentaFormOk
      have hany : (carga.detalles.any
          (fun d => d.producto == l.producto && decide (0 < d.cantidad_actual))) = false := by
        rw [List.any_eq_false]
        intro d hd
        simp only [Bool.and_eq_true, beq_iff_eq, decide_eq_true_eq, not_and]
        intro hpe
        exact absurd hpe (hnone d hd)
      rw [hany]
      simp
    rcases h : lineas.all (fun l => detalleVentaFormOk carga activos l) with _ | _
    · rfl
    · rw [List.all_eq_true] at h
      exact absurd (h l hlmem) (by rw [hform]; decide)
  · intro carga1 venta hok
    unfold ventaCrear at hok
    by_cases h1 : eV = false
    · rw [if_pos h1] at hok; cases hok
    · rw [if_neg h1] at hok
      by_cases h2 : eA = false
      · rw [if_pos h2] at hok; cases hok
      · rw [if_neg h2] at hok
        by_cases h3 : (hl.isNone || hs.isSome) = true
        · rw [if_pos h3] at hok; cases hok
        · rw [if_neg h3] at hok
          by_cases h4 : (lineas.isEmpty ||
              !(lineas.all (fun l => detalleVentaFormOk carga activos l))) = true
          · rw [if_pos h4] at hok; cases hok
          · rw [if_neg h4] at hok
            simp only [Except.ok.injEq, Prod.mk.injEq] at hok
            obtain ⟨hc, hv⟩ := hok
            subst hc; subst hv
            exact ⟨rfl, descontar_foldl lineas carga.detalles, rfl, rfl⟩

theorem venta_crear_atomica_spec_witness :
    (⟨false, [⟨1, 10, 7⟩]⟩ : CargaCamion).cerrado = (⟨false, [⟨1, 10, 10⟩]⟩ : CargaCamion).cerrado
    ∧ (⟨false, [⟨1, 10, 7⟩]⟩ : CargaCamion).detalles =
        [(⟨1, 10, 10⟩ : CargaCamionDetalle)].map (fun d =>
          { d with cantidad_actual := d.cantidad_actual - vendidoTotal [⟨1, 3, 5⟩] d.producto })
    ∧ (⟨[⟨1, 3, 5, 15⟩], 15⟩ : VentaRow).detalles = [(⟨1, 3, 5⟩ : LineaVenta)].map (fun l =>
        { producto := l.producto, cantidad := (l.cantidad : ℚ),
          precio_unitario := l.precio_unitario,
          subtotal := (l.cantidad : ℚ) * l.precio_unitario })
    ∧ (⟨[⟨1, 3, 5, 15⟩], 15⟩ : VentaRow).total =
        ((⟨[⟨1, 3, 5, 15⟩], 15⟩ : VentaRow).detalles.map (fun d => d.subtotal)).sum :=
  (venta_crear_atomica_spec true true (some 0) none ⟨false, [⟨1, 10, 10⟩]⟩ [1] [⟨1, 3, 5⟩]
      (by decide)).2.2 ⟨false, [⟨1, 10, 7⟩]⟩ ⟨[⟨1, 3, 5, 15⟩], 15⟩
    (by norm_num [ventaCrear, detalleVentaFormOk, descontarStock])

/-- C1: the invariant `0 ≤ cantidad_actual` is not maintained by the code: a
single sale whose formset holds two lines for the same product validates each
line against the pre-sale stock, so with 10 units loaded two lines of 6 both
pass and the view decrements twice, leaving `cantidad_actual = -2 < 0`. -/
theorem venta_duplicada_stock_negativo :
    ventaCrear true true (some 0) none ⟨false, [⟨1, 10, 10⟩]⟩ [1] [⟨1, 6, 1⟩, ⟨1, 6, 1⟩]
      = .ok (⟨false, [⟨1, 10, -2⟩]⟩, ⟨[⟨1, 6, 1, 6⟩, ⟨1, 6, 1, 6⟩], 12⟩)
    ∧ ((-2 : ℚ) < 0) :=
  ⟨by norm_num [ventaCrear, detalleVentaFormOk, descontarStock], by norm_num⟩

/-! ### camiones/views.py — carga_diaria_cerrar, carga_diaria_agregar_producto -/

/-- `carga_diaria_cerrar` (camiones/views.py lines 310-330): fails when the
load has no lines; otherwise sets `cerrado := true`. -/
def cargaDiariaCerrar (carga : CargaCamion) : Except String CargaCamion :=
  if carga.detalles.isEmpty then .error "No se puede cerrar una carga sin productos."
  else .ok { carga with cerrado := true }

/-- `carga_diaria_agregar_producto` (camiones/views.py lines 248-286) with the
`CargaCamionDetalleForm` queryset (camiones/forms.py lines 253-265): a closed
load rejects the request; otherwise the product must be active and not already
on the load; the new line starts with `cantidad_actual = cantidad_cargada`. -/
def cargaDiariaAgregarProducto (carga : CargaCamion) (productosActivos : List Nat)
    (producto : Nat) (cantidad_cargada : ℚ) : Except String CargaCamion :=
  if carga.cerrado then
    .error "Esta carga ya está cerrada. No se pueden agregar más productos."
  else if carga.detalles.any (fun d => d.producto == producto) ||
          !(productosActivos.contains producto) then
    .error "Por favor corrige los errores en el formulario."
  else
    .ok { carga with detalles := carga.detalles ++ [cargaDetalleNueva producto cantidad_cargada] }

/-- C9 counterexample: `venta_crear` never consults `cerrado`, so a sale
against an already closed load succeeds and decrements its stock — refuting
the part of the claim that after closing no sales may reference the load. -/
theorem venta_carga_cerrada_contra :
    ventaCrear true true (some 0) none ⟨true, [⟨1, 5, 5⟩]⟩ [1] [⟨1, 1, 2⟩]
      = .ok (⟨true, [⟨1, 5, 4⟩]⟩, ⟨[⟨1, 1, 2, 2⟩], 2⟩) := by
  norm_num [ventaCrear, detalleVentaFormOk, descontarStock]

/-- C9 (amended): closing a truck load fails iff the load has zero lines; on
success it sets `cerrado := true`, and afterwards the add-product view always
rejects new lines for that load. Sales, however, are not blocked by the
`cerrado` flag (see the counterexample). -/
theorem carga_cerrar_spec (carga : CargaCamion) :
    (carga.detalles = [] →
      cargaDiariaCerrar carga = .error "No se puede cerrar una carga sin productos.")
    ∧ (carga.detalles ≠ [] →
        cargaDiariaCerrar carga = .ok { carga with cerrado := true }
        ∧ ∀ activos p q, cargaDiariaAgregarProducto { carga with cerrado := true } activos p q =
            .error "Esta carga ya está cerrada. No se pueden agregar más productos.") := by
  constructor
  · intro h
    unfold cargaDiariaCerrar
    rw [if_pos (by rw [h]; rfl)]
  · intro h
    constructor
    · unfold cargaDiariaCerrar
      rw [if_neg (by simpa using h)]
    · intro activos p q
      unfold cargaDiariaAgregarProducto
      rw [if_pos rfl]

theorem carga_cerrar_spec_witness :
    cargaDiariaCerrar ⟨false, [⟨1, 5, 5⟩]⟩ =
      .ok { (⟨false, [⟨1, 5, 5⟩]⟩ : CargaCamion) with cerrado := true }
    ∧ cargaDiariaAgregarProducto
        { (⟨false, [⟨1, 5, 5⟩]⟩ : CargaCamion) with cerrado := true } [2] 2 3 =
        .error "Esta carga ya está cerrada. No se pueden agregar más productos." :=
  ⟨((carga_cerrar_spec ⟨false, [⟨1, 5, 5⟩]⟩).2 (by decide)).1,
   ((carga_cerrar_spec ⟨false, [⟨1, 5, 5⟩]⟩).2 (by decide)).2 [2] 2 3⟩

/-! ### rutas/models.py — RutaDetalle; planificacion/models.py — Planificacion,
DetallePlanificacion; asignaciones/views.py — generar_planificaciones -/

/-- One `RutaDetalle` row (route stop): client, visit order and the `activo`
flag. `unique_together ['ruta', 'cliente']` makes ids unique within a route. -/
structure RutaDetalleRec where
  id : Nat
  orden_visita : Nat
  activo : Bool
deriving DecidableEq

/-- The natural key of a `Planificacion` row: the triple the generator's
`get_or_create` matches on. -/
structure PlanKey where
  asignacion : Nat
  ruta_detalle : Nat
  fecha : Nat
deriving DecidableEq

/-- A `Planificacion` row: its key plus the `tipo` field (set through
`defaults` on creation). -/
structure Planificacion where
  key : PlanKey
  tipo : String
deriving DecidableEq

/-- The database tables the plan generator can reach. `detallesPlanificacion`
holds, per `DetallePlanificacion` row, the key of the plan it references;
`ventas` and `cargas` stand for the rows of every other table (opaque here,
used to state the frame property). -/
structure Almacen where
  planificaciones : List Planificacion
  detallesPlanificacion : List PlanKey
  ventas : List Nat
  cargas : List Nat
deriving DecidableEq

/-- Whether a plan with the given key exists. -/
def tienePlan (st : Almacen) (k : PlanKey) : Bool :=
  st.planificaciones.any (fun p => p.key == k)

/-- `Planificacion.objects.get_or_create(asignacion=..., ruta_detalle=...,
fecha=..., defaults={'tipo': ...})` (asignaciones/views.py lines 337-344):
returns the store and the `created` flag. -/
def getOrCreatePlan (st : Almacen) (k : PlanKey) (tipo : String) : Almacen × Bool :=
  if tienePlan st k then (st, false)
  else ({ st with planificaciones := st.planificaciones ++ [{ key := k, tipo := tipo }] }, true)

/-- `DetallePlanificacion.objects.get_or_create(planificacion=...)`
(asignaciones/views.py lines 348-350 and planificacion/views.py lines 62-65). -/
def getOrCreateDetallePlan (st : Almacen) (k : PlanKey) : Almacen × Bool :=
  if st.detallesPlanificacion.any (fun d => d == k) then (st, false)
  else ({ st with detallesPlanificacion := st.detallesPlanificacion ++ [k] }, true)

/-- The inner loop of `generar_planificaciones` over the route stops of one
day: get-or-create the plan and, only when it was newly created, eagerly
get-or-create its `DetallePlanificacion` and count it. -/
def generarDia (asig fecha : Nat) : List RutaDetalleRec → Almacen × Nat → Almacen × Nat
  | [], acc => acc
  | rd :: resto, (st, n) =>
    match getOrCreatePlan st ⟨asig, rd.id, fecha⟩ "planificado" with
    | (st1, true) =>
        generarDia asig fecha resto ((getOrCreateDetallePlan st1 ⟨asig, rd.id, fecha⟩).1, n + 1)
    | (st1, false) => generarDia asig fecha resto (st1, n)

/-- The outer `while fecha_actual <= hasta_fecha` loop, one day at a time. -/
def generarDias (asig : Nat) (stops : List RutaDetalleRec) : List Nat → Almacen × Nat → Almacen × Nat
  | [], acc => acc
  | f :: resto, acc => generarDias asig stops resto (generarDia asig f stops acc)

/-- Stable insertion into a list sorted by `orden_visita`. -/
def insertarPorOrden (rd : RutaDetalleRec) : List RutaDetalleRec → List RutaDetalleRec
  | [] => [rd]
  | x :: xs =>
    if rd.orden_visita ≤ x.orden_visita then rd :: x :: xs
    else x :: insertarPorOrden rd xs

/-- The queryset's `order_by('orden_visita')`, as a stable insertion sort. -/
def ordenarPorOrdenVisita (l : List RutaDetalleRec) : List RutaDetalleRec :=
  l.foldr insertarPorOrden []

/-- The fields of an `Asignacion` row that the generator reads. -/
structure AsignacionRec where
  id : Nat
  fecha_inicio : Nat
  fecha_fin : Option Nat
deriving DecidableEq

/-- The inclusive day range `[desde, hasta]` the `while` loop walks. -/
def diasGeneracion (desde hasta : Nat) : List Nat :=
  (List.range (hasta + 1 - desde)).map (fun i => desde + i)

/-- `generar_planificaciones(asignacion, desde_fecha=None)`
(asignaciones/views.py lines 298-356): `desde` defaults to `fecha_inicio`;
`hasta` is `fecha_fin` when set, else `desde + 30` days; the route stops are
taken WITHOUT filtering on `activo` (the queryset filters only on `ruta`),
ordered by `orden_visita`; an exception is raised when the route has no stops
at all; otherwise every day in `[desde, hasta]` is walked and the number of
newly created plans is returned. -/
def generarPlanificaciones (asig : AsignacionRec) (stopsRuta : List RutaDetalleRec)
    (st : Almacen) (desdeFecha : Option Nat) : Except String (Almacen × Nat) :=
  let desde := desdeFecha.getD asig.fecha_inicio
  let hasta := asig.fecha_fin.getD (desde + 30)
  let clientesRuta := ordenarPorOrdenVisita stopsRuta
  if stopsRuta.isEmpty then .error "La ruta no tiene clientes asignados."
  else .ok (generarDias asig.id clientesRuta (diasGeneracion desde hasta) (st, 0))

theorem generarPlanificaciones_eq (asig : AsignacionRec) (stopsRuta : List RutaDetalleRec)
    (st : Almacen) (desdeFecha : Option Nat) :
    generarPlanificaciones asig stopsRuta st desdeFecha =
      if stopsRuta.isEmpty then .error "La ruta no tiene clientes asignados."
      else .ok (generarDias asig.id (ordenarPorOrdenVisita stopsRuta)
        (diasGeneracion (desdeFecha.getD asig.fecha_inicio)
          (asig.fecha_fin.getD (desdeFecha.getD asig.fecha_inicio + 30))) (st, 0)) := rfl

theorem getOrCreateDetallePlan_planificaciones (st : Almacen) (k : PlanKey) :
    ((getOrCreateDetallePlan st k).1).planificaciones = st.planificaciones := by
  unfold getOrCreateDetallePlan
  by_cases h : st.detallesPlanificacion.any (fun d => d == k) = true
  · rw [if_pos h]
  · rw [if_neg h]

theorem generarDia_cons (asig fecha : Nat) (rd : RutaDetalleRec) (resto : List RutaDetalleRec)
    (st : Almacen) (n : Nat) :
    generarDia asig fecha (rd :: resto) (st, n) =
      if tienePlan st ⟨asig, rd.id, fecha⟩ then generarDia asig fecha resto (st, n)
      else generarDia asig fecha resto
        ((getOrCreateDetallePlan
            { st with planificaciones :=
                st.planificaciones ++ [⟨⟨asig, rd.id, fecha⟩, "planificado"⟩] }
            ⟨asig, rd.id, fecha⟩).1, n + 1) := by
  show (match getOrCreatePlan st ⟨asig, rd.id, fecha⟩ "planificado" with
    | (st1, true) =>
        generarDia asig fecha resto ((getOrCreateDetallePlan st1 ⟨asig, rd.id, fecha⟩).1, n + 1)
    | (st1, false) => generarDia asig fecha resto (st1, n)) = _
  unfold getOrCreatePlan
  by_cases h : tienePlan st ⟨asig, rd.id, fecha⟩ = true
  · rw [if_pos h, if_pos h]
  · rw [if_neg h, if_neg h]

theorem generarDia_mono (asig fecha : Nat) (stops : List RutaDetalleRec) :
    ∀ (st : Almacen) (n : Nat) (k : PlanKey), tienePlan st k = true →
      tienePlan (generarDia asig fecha stops (st, n)).1 k = true := by
  induction stops with
  | nil => intro st n k hk; exact hk
  | cons rd resto ih =>
    intro st n k hk
    rw [generarDia_cons]
    by_cases h : tienePlan st ⟨asig, rd.id, fecha⟩ = true
    · rw [if_pos h]; exact ih st n k hk
    · rw [if_neg h]
      apply ih
      rw [tienePlan, getOrCreateDetallePlan_planificaciones]
      show (st.planificaciones ++
        ([⟨⟨asig, rd.id, fecha⟩, "planificado"⟩] : List Planificacion)).any
        (fun p => p.key == k) = true
      rw [List.any_append]
      rw [tienePlan] at hk
      rw [hk]
      rfl

theorem generarDia_cubre (asig fecha : Nat) (stops : List RutaDetalleRec) :
    ∀ (st : Almacen) (n : Nat) (rd : RutaDetalleRec), rd ∈ stops →
      tienePlan (generarDia asig fecha stops (st, n)).1 ⟨asig, rd.id, fecha⟩ = true := by
  induction stops with
  | nil => intro _ _ _ h; cases h
  | cons x resto ih =>
    intro st n rd hrd
    rw [generarDia_cons]
    by_cases hx : tienePlan st ⟨asig, x.id, fecha⟩ = true
    · rw [if_pos hx]
      rcases List.mem_cons.mp hrd with h | h
      · subst h; exact generarDia_mono asig fecha resto st n _ hx
      · exact ih st n rd h
    · rw [if_neg hx]
      rcases List.mem_cons.mp hrd with h | h
      · subst h
        apply generarDia_mono
        rw [tienePlan, getOrCreateDetallePlan_planificaciones]
        show (st.planificaciones ++
          ([⟨⟨asig, rd.id, fecha⟩, "planificado"⟩] : List Planificacion)).any
          (fun p => p.key == (⟨asig, rd.id, fecha⟩ : PlanKey)) = true
        rw [List.any_append]
        simp
      · exact ih _ _ rd h

theorem generarDia_noop (asig fecha : Nat) (stops : List RutaDetalleRec) :
    ∀ (st : Almacen) (n : Nat), (∀ rd ∈ stops, tienePlan st ⟨asig, rd.id, fecha⟩ = true) →
      generarDia asig fecha stops (st, n) = (st, n) := by
  induction stops with
  | nil => intro st n _; rfl
  | cons x resto ih =>
    intro st n hall
    rw [generarDia_cons, if_pos (hall x (List.mem_cons_self x resto))]
    exact ih st n (fun rd h => hall rd (List.mem_cons_of_mem x h))

theorem generarDias_mono (asig : Nat) (stops : List RutaDetalleRec) (dias : List Nat) :
    ∀ (st : Almacen) (n : Nat) (k : PlanKey), tienePlan st k = true →
      tienePlan (generarDias asig stops dias (st, n)).1 k = true := by
  induction dias with
  | nil => intro st n k hk; exact hk
  | cons f resto ih =>
    intro st n k hk
    show tienePlan (generarDias asig stops resto (generarDia asig f stops (st, n))).1 k = true
    rcases hgd : generarDia asig f stops (st, n) with ⟨st1, n1⟩
    have h1 : tienePlan st1 k = true := by
      have := generarDia_mono asig f stops st n k hk
      rw [hgd] at this
      exact this
    exact ih st1 n1 k h1

theorem generarDias_cubre (asig : Nat) (stops : List RutaDetalleRec) (dias : List Nat) :
    ∀ (st : Almacen) (n : Nat) (f : Nat), f ∈ dias → ∀ rd ∈ stops,
      tienePlan (generarDias asig stops dias (st, n)).1 ⟨asig, rd.id, f⟩ = true := by
  induction dias with
  | nil => intro _ _ _ h; cases h
  | cons g resto ih =>
    intro st n f hf rd hrd
    show tienePlan (generarDias asig stops resto (generarDia asig g stops (st, n))).1 _ = true
    rcases hgd : generarDia asig g stops (st, n) with ⟨st1, n1⟩
    rcases List.mem_cons.mp hf with h | h
    · subst h
      have h1 : tienePlan st1 ⟨asig, rd.id, f⟩ = true := by
        have := generarDia_cubre asig f stops st n rd hrd
        rw [hgd] at this
        exact this
      exact generarDias_mono asig stops resto st1 n1 _ h1
    · exact ih st1 n1 f h rd hrd

theorem generarDias_noop (asig : Nat) (stops : List RutaDetalleRec) (dias : List Nat) :
    ∀ (st : Almacen) (n : Nat),
      (∀ f ∈ dias, ∀ rd ∈ stops, tienePlan st ⟨asig, rd.id, f⟩ = true) →
      generarDias asig stops dias (st, n) = (st, n) := by
  induction dias with
  | nil => intro st n _; rfl
  | cons f resto ih =>
    intro st n hall
    show generarDias asig stops resto (generarDia asig f stops (st, n)) = (st, n)
    rw [generarDia_noop asig f stops st n (hall f (List.mem_cons_self f resto))]
    exact ih st n (fun g hg => hall g (List.mem_cons_of_mem f hg))

theorem generarDia_nodup (asig fecha : Nat) (stops : List RutaDetalleRec) :
    ∀ (st : Almacen) (n : Nat), (st.planificaciones.map Planificacion.key).Nodup →
      (((generarDia asig fecha stops (st, n)).1).planificaciones.map Planificacion.key).Nodup := by
  induction stops with
  | nil => intro st n h; exact h
  | cons rd resto ih =>
    intro st n h
    rw [generarDia_cons]
    by_cases hx : tienePlan st ⟨asig, rd.id, fecha⟩ = true
    · rw [if_pos hx]; exact ih st n h
    · rw [if_neg hx]
      apply ih
      rw [getOrCreateDetallePlan_planificaciones]
      show ((st.planificaciones ++
        ([⟨⟨asig, rd.id, fecha⟩, "planificado"⟩] : List Planificacion)).map
        Planificacion.key).Nodup
      rw [List.map_append, List.nodup_append]
      refine ⟨h, List.nodup_singleton _, ?_⟩
      intro a ha hb
      rw [List.map_singleton, List.mem_singleton] at hb
      subst hb
      simp only [tienePlan, Bool.not_eq_true, List.any_eq_false] at hx
      obtain ⟨p, hp, hpk⟩ := List.mem_map.mp ha
      have hfalse := hx p hp
      rw [hpk] at hfalse
      simp at hfalse

theorem generarDias_nodup (asig : Nat) (stops : List RutaDetalleRec) (dias : List Nat) :
    ∀ (st : Almacen) (n : Nat), (st.planificaciones.map Planificacion.key).Nodup →
      (((generarDias asig stops dias (st, n)).1).planificaciones.map Planificacion.key).Nodup := by
  induction dias with
  | nil => intro st n h; exact h
  | cons f resto ih =>
    intro st n h
    show (((generarDias asig stops resto (generarDia asig f stops (st, n))).1).planificaciones.map
      Planificacion.key).Nodup
    rcases hgd : generarDia asig f stops (st, n) with ⟨st1, n1⟩
    apply ih
    have := generarDia_nodup asig f stops st n h
    rw [hgd] at this
    exact this

/-- C4: plan generation is idempotent: whenever a run over given inputs
succeeds producing store `st1` and count `n1`, running it again over the very
same inputs returns `st1` unchanged with a created-count of 0; and generation
never introduces duplicate `(asignacion, ruta_detalle, fecha)` triples. -/
theorem generar_planificaciones_idempotente (asig : AsignacionRec)
    (stops : List RutaDetalleRec) (st : Almacen) (desde : Option Nat)
    (st1 : Almacen) (n1 : Nat)
    (h1 : generarPlanificaciones asig stops st desde = .ok (st1, n1)) :
    generarPlanificaciones asig stops st1 desde = .ok (st1, 0)
    ∧ ((st.planificaciones.map Planificacion.key).Nodup →
        (st1.planificaciones.map Planificacion.key).Nodup) := by
  rw [generarPlanificaciones_eq] at h1
  rw [generarPlanificaciones_eq]
  by_cases hempty : stops.isEmpty = true
  · rw [if_pos hempty] at h1; cases h1
  · rw [if_neg hempty] at h1
    rw [if_neg hempty]
    simp only [Except.ok.injEq] at h1
    constructor
    · have hnoop : generarDias asig.id (ordenarPorOrdenVisita stops)
          (diasGeneracion (desde.getD asig.fecha_inicio)
            (asig.fecha_fin.getD (desde.getD asig.fecha_inicio + 30))) (st1, 0) = (st1, 0) := by
        apply generarDias_noop
        intro f hf rd hrd
        have hcov := generarDias_cubre asig.id (ordenarPorOrdenVisita stops) _ st 0 f hf rd hrd
        rw [h1] at hcov
        exact hcov
      rw [hnoop]
    · intro hnodup
      have hnd := generarDias_nodup asig.id (ordenarPorOrdenVisita stops)
        (diasGeneracion (desde.getD asig.fecha_inicio)
          (asig.fecha_fin.getD (desde.getD asig.fecha_inicio + 30))) st 0 hnodup
      rw [h1] at hnd
      exact hnd

theorem generar_planificaciones_idempotente_witness :
    generarPlanificaciones ⟨1, 0, some 0⟩ [⟨1, 1, true⟩]
        ⟨[⟨⟨1, 1, 0⟩, "planificado"⟩], [⟨1, 1, 0⟩], [], []⟩ none
      = .ok (⟨[⟨⟨1, 1, 0⟩, "planificado"⟩], [⟨1, 1, 0⟩], [], []⟩, 0)
    ∧ (([(⟨⟨1, 1, 0⟩, "planificado"⟩ : Planificacion)]).map Planificacion.key).Nodup :=
  ⟨(generar_planificaciones_idempotente ⟨1, 0, some 0⟩ [⟨1, 1, true⟩] ⟨[], [], [], []⟩ none
      ⟨[⟨⟨1, 1, 0⟩, "planificado"⟩], [⟨1, 1, 0⟩], [], []⟩ 1 rfl).1,
   (generar_planificaciones_idempotente ⟨1, 0, some 0⟩ [⟨1, 1, true⟩] ⟨[], [], [], []⟩ none
      ⟨[⟨⟨1, 1, 0⟩, "planificado"⟩], [⟨1, 1, 0⟩], [], []⟩ 1 rfl).2 (by decide)⟩

theorem insertarPorOrden_perm (rd : RutaDetalleRec) (l : List RutaDetalleRec) :
    (insertarPorOrden rd l).Perm (rd :: l) := by
  induction l with
  | nil => exact List.Perm.refl _
  | cons x xs ih =>
    unfold insertarPorOrden
    by_cases h : rd.orden_visita ≤ x.orden_visita
    · rw [if_pos h]
    · rw [if_neg h]
      exact (ih.cons x).trans (List.Perm.swap rd x xs)

theorem ordenarPorOrdenVisita_perm (l : List RutaDetalleRec) :
    (ordenarPorOrdenVisita l).Perm l := by
  induction l with
  | nil => exact List.Perm.refl _
  | cons x xs ih =>
    show (insertarPorOrden x (ordenarPorOrdenVisita xs)).Perm (x :: xs)
    exact (insertarPorOrden_perm x _).trans (ih.cons x)

theorem insertarPorOrden_pairwise (rd : RutaDetalleRec) (l : List RutaDetalleRec)
    (h : l.Pairwise (fun a b => a.orden_visita ≤ b.orden_visita)) :
    (insertarPorOrden rd l).Pairwise (fun a b => a.orden_visita ≤ b.orden_visita) := by
  induction l with
  | nil => simp [insertarPorOrden]
  | cons x xs ih =>
    rw [List.pairwise_cons] at h
    unfold insertarPorOrden
    by_cases hle : rd.orden_visita ≤ x.orden_visita
    · rw [if_pos hle, List.pairwise_cons]
      refine ⟨?_, List.pairwise_cons.mpr h⟩
      intro b hb
      rcases List.mem_cons.mp hb with hb | hb
      · subst hb; exact hle
      · exact le_trans hle (h.1 b hb)
    · rw [if_neg hle, List.pairwise_cons]
      refine ⟨?_, ih h.2⟩
      intro b hb
      rcases List.mem_cons.mp ((insertarPorOrden_perm rd xs).mem_iff.mp hb) with hb' | hb'
      · subst hb'; omega
      · exact h.1 b hb'

theorem ordenarPorOrdenVisita_pairwise (l : List RutaDetalleRec) :
    (ordenarPorOrdenVisita l).Pairwise (fun a b => a.orden_visita ≤ b.orden_visita) := by
  induction l with
  | nil => exact List.Pairwise.nil
  | cons x xs ih => exact insertarPorOrden_pairwise x _ ih

theorem diasGeneracion_nodup (desde hasta : Nat) : (diasGeneracion desde hasta).Nodup :=
  List.Nodup.map (fun _ _ h => by omega) (List.nodup_range _)

theorem generarDia_fresh (asig fecha : Nat) (stops : List RutaDetalleRec) :
    ∀ (st : Almacen) (n : Nat),
    (∀ rd ∈ stops, tienePlan st ⟨asig, rd.id, fecha⟩ = false) →
    (∀ rd ∈ stops, (st.detallesPlanificacion.any
        (fun d => d == (⟨asig, rd.id, fecha⟩ : PlanKey))) = false) →
    (stops.map RutaDetalleRec.id).Nodup →
    generarDia asig fecha stops (st, n) =
      ({ st with
          planificaciones := st.planificaciones ++
            stops.map (fun rd => ⟨⟨asig, rd.id, fecha⟩, "planificado"⟩),
          detallesPlanificacion := st.detallesPlanificacion ++
            stops.map (fun rd => ⟨asig, rd.id, fecha⟩) },
       n + stops.length) := by
  induction stops with
  | nil =>
    intro st n _ _ _
    show (st, n) = _
    rw [List.map_nil, List.map_nil, List.append_nil, List.append_nil]
    rfl
  | cons x resto ih =>
    intro st n hP hD hnodup
    rw [generarDia_cons,
      if_neg (by simp [hP x (List.mem_cons_self x resto)])]
    have hDet : (getOrCreateDetallePlan
        { st with planificaciones :=
            st.planificaciones ++ [⟨⟨asig, x.id, fecha⟩, "planificado"⟩] }
        ⟨asig, x.id, fecha⟩).1 =
        { st with
            planificaciones := st.planificaciones ++ [⟨⟨asig, x.id, fecha⟩, "planificado"⟩],
            detallesPlanificacion := st.detallesPlanificacion ++ [⟨asig, x.id, fecha⟩] } := by
      unfold getOrCreateDetallePlan
      rw [if_neg (by
        show ¬(st.detallesPlanificacion.any
          (fun d => d == (⟨asig, x.id, fecha⟩ : PlanKey))) = true
        simp [hD x (List.mem_cons_self x resto)])]
    rw [hDet]
    rw [List.map_cons] at hnodup
    have hxid : x.id ∉ resto.map RutaDetalleRec.id := (List.nodup_cons.mp hnodup).1
    have ihres := ih
      { st with
          planificaciones := st.planificaciones ++ [⟨⟨asig, x.id, fecha⟩, "planificado"⟩],
          detallesPlanificacion := st.detallesPlanificacion ++ [⟨asig, x.id, fecha⟩] }
      (n + 1)
      (by
        intro rd hrd
        show ((st.planificaciones ++
          ([⟨⟨asig, x.id, fecha⟩, "planificado"⟩] : List Planificacion)).any
          (fun p => p.key == (⟨asig, rd.id, fecha⟩ : PlanKey))) = false
        rw [List.any_append]
        rw [show (st.planificaciones.any
            (fun p => p.key == (⟨asig, rd.id, fecha⟩ : PlanKey))) = false from
          hP rd (List.mem_cons_of_mem x hrd)]
        rw [Bool.false_or]
        simp only [List.any_cons, List.any_nil, Bool.or_false]
        rw [beq_eq_false_iff_ne]
        intro heq
        injection heq with h1 h2 h3
        exact hxid (h2 ▸ List.mem_map_of_mem RutaDetalleRec.id hrd)
      )
      (by
        intro rd hrd
        show ((st.detallesPlanificacion ++ ([⟨asig, x.id, fecha⟩] : List PlanKey)).any
          (fun d => d == (⟨asig, rd.id, fecha⟩ : PlanKey))) = false
        rw [List.any_append, hD rd (List.mem_cons_of_mem x hrd), Bool.false_or]
        simp only [List.any_cons, List.any_nil, Bool.or_false]
        rw [beq_eq_false_iff_ne]
        intro heq
        injection heq with h1 h2 h3
        exact hxid (h2 ▸ List.mem_map_of_mem RutaDetalleRec.id hrd)
      )
      (List.nodup_cons.mp hnodup).2
    rw [ihres]
    rw [Prod.mk.injEq]
    constructor
    · rw [List.map_cons, List.map_cons, List.append_assoc, List.append_assoc,
        List.singleton_append, List.singleton_append]
    · rw [List.length_cons]
      omega

theorem generarDias_fresh (asig : Nat) (stops : List RutaDetalleRec)
    (hnodupStops : (stops.map RutaDetalleRec.id).Nodup) :
    ∀ (dias : List Nat) (st : Almacen) (n : Nat), dias.Nodup →
    (∀ f ∈ dias, ∀ rd ∈ stops, tienePlan st ⟨asig, rd.id, f⟩ = false) →
    (∀ f ∈ dias, ∀ rd ∈ stops,
      (st.detallesPlanificacion.any (fun d => d == (⟨asig, rd.id, f⟩ : PlanKey))) = false) →
    generarDias asig stops dias (st, n) =
      ({ st with
          planificaciones := st.planificaciones ++
            dias.flatMap (fun f => stops.map (fun rd => ⟨⟨asig, rd.id, f⟩, "planificado"⟩)),
          detallesPlanificacion := st.detallesPlanificacion ++
            dias.flatMap (fun f => stops.map (fun rd => ⟨asig, rd.id, f⟩)) },
       n + dias.length * stops.length) := by
  intro dias
  induction dias with
  | nil =>
    intro st n _ _ _
    show (st, n) = _
    rw [List.flatMap_nil, List.flatMap_nil, List.append_nil, List.append_nil]
    rw [Prod.mk.injEq]
    exact ⟨rfl, by rw [List.length_nil]; omega⟩
  | cons f resto ih =>
    intro st n hnodupD hP hD
    show generarDias asig stops resto (generarDia asig f stops (st, n)) = _
    rw [generarDia_fresh asig f stops st n (hP f (List.mem_cons_self f resto))
      (hD f (List.mem_cons_self f resto)) hnodupStops]
    have hfres : f ∉ resto := (List.nodup_cons.mp hnodupD).1
    have ihres := ih
      { st with
          planificaciones := st.planificaciones ++
            stops.map (fun rd => ⟨⟨asig, rd.id, f⟩, "planificado"⟩),
          detallesPlanificacion := st.detallesPlanificacion ++
            stops.map (fun rd => ⟨asig, rd.id, f⟩) }
      (n + stops.length)
      (List.nodup_cons.mp hnodupD).2
      (by
        intro g hg rd hrd
        show ((st.planificaciones ++
          stops.map (fun rd => (⟨⟨asig, rd.id, f⟩, "planificado"⟩ : Planificacion))).any
          (fun p => p.key == (⟨asig, rd.id, g⟩ : PlanKey))) = false
        rw [List.any_append]
        rw [show (st.planificaciones.any
            (fun p => p.key == (⟨asig, rd.id, g⟩ : PlanKey))) = false from
          hP g (List.mem_cons_of_mem f hg) rd hrd]
        rw [Bool.false_or, List.any_eq_false]
        intro y hy
        obtain ⟨rd2, hrd2, heqy⟩ := List.mem_map.mp hy
        subst heqy
        simp only [Bool.not_eq_true]
        rw [beq_eq_false_iff_ne]
        intro heq
        injection heq with h1 h2 h3
        exact hfres (h3 ▸ hg)
      )
      (by
        intro g hg rd hrd
        show ((st.detallesPlanificacion ++ stops.map (fun rd => (⟨asig, rd.id, f⟩ : PlanKey))).any
          (fun d => d == (⟨asig, rd.id, g⟩ : PlanKey))) = false
        rw [List.any_append, hD g (List.mem_cons_of_mem f hg) rd hrd]
        rw [Bool.false_or, List.any_eq_false]
        intro y hy
        obtain ⟨rd2, hrd2, heqy⟩ := List.mem_map.mp hy
        subst heqy
        simp only [Bool.not_eq_true]
        rw [beq_eq_false_iff_ne]
        intro heq
        injection heq with h1 h2 h3
        exact hfres (h3 ▸ hg)
      )
    rw [ihres]
    rw [Prod.mk.injEq]
    constructor
    · rw [List.flatMap_cons, List.flatMap_cons, List.append_assoc, List.append_assoc]
    · rw [List.length_cons, add_one_mul]
      omega

/-- C6 counterexample: a route whose only stop has `activo = false` is not
rejected: generation succeeds and creates a plan for the inactive stop, so
plans are not restricted to active stops and no error is raised when no
active stop exists. -/
theorem generar_ignora_activo_contra :
    (generarPlanificaciones ⟨1, 0, some 0⟩ [⟨7, 1, false⟩] ⟨[], [], [], []⟩ none
      = .ok (⟨[⟨⟨1, 7, 0⟩, "planificado"⟩], [⟨1, 7, 0⟩], [], []⟩, 1))
    ∧ (⟨7, 1, false⟩ : RutaDetalleRec).activo = false :=
  ⟨rfl, rfl⟩

/-- C6 (amended): for every assignment the generator walks every calendar day
from the start date (`desde`, defaulting to `fecha_inicio`) through the end
bound inclusive (`fecha_fin` when set, else `desde + 30` days); for each day it
creates one plan per route stop REGARDLESS of the stop's `activo` flag, in
`orden_visita` order; it raises the no-stops error exactly when the route has
no stops at all (active or not). Stated for a store with no pre-existing rows
of this assignment. -/
theorem generar_planificaciones_todas_las_paradas (asig : AsignacionRec)
    (stops : List RutaDetalleRec) (st : Almacen) (desde : Option Nat)
    (hnodupStops : (stops.map RutaDetalleRec.id).Nodup)
    (hfreshP : ∀ p ∈ st.planificaciones, p.key.asignacion ≠ asig.id)
    (hfreshD : ∀ k ∈ st.detallesPlanificacion, k.asignacion ≠ asig.id) :
    (stops = [] →
      generarPlanificaciones asig stops st desde = .error "La ruta no tiene clientes asignados.")
    ∧ (ordenarPorOrdenVisita stops).Pairwise (fun a b => a.orden_visita ≤ b.orden_visita)
    ∧ (stops ≠ [] →
        generarPlanificaciones asig stops st desde = .ok
          ({ st with
              planificaciones := st.planificaciones ++
                (diasGeneracion (desde.getD asig.fecha_inicio)
                    (asig.fecha_fin.getD (desde.getD asig.fecha_inicio + 30))).flatMap
                  (fun f => (ordenarPorOrdenVisita stops).map
                    (fun rd => ⟨⟨asig.id, rd.id, f⟩, "planificado"⟩)),
              detallesPlanificacion := st.detallesPlanificacion ++
                (diasGeneracion (desde.getD asig.fecha_inicio)
                    (asig.fecha_fin.getD (desde.getD asig.fecha_inicio + 30))).flatMap
                  (fun f => (ordenarPorOrdenVisita stops).map
                    (fun rd => ⟨asig.id, rd.id, f⟩)) },
           (diasGeneracion (desde.getD asig.fecha_inicio)
               (asig.fecha_fin.getD (desde.getD asig.fecha_inicio + 30))).length
             * stops.length)) := by
  refine ⟨?_, ordenarPorOrdenVisita_pairwise stops, ?_⟩
  · intro h
    rw [generarPlanificaciones_eq, if_pos (by rw [h]; rfl)]
  · intro hne
    rw [generarPlanificaciones_eq,
      if_neg (by rw [Bool.not_eq_true, List.isEmpty_eq_false_iff_exists_mem]
                 rcases stops with _ | ⟨x, xs⟩
                 · exact absurd rfl hne
                 · exact ⟨x, List.mem_cons_self x xs⟩)]
    have hnodupOrd : ((ordenarPorOrdenVisita stops).map RutaDetalleRec.id).Nodup :=
      (List.Perm.nodup_iff ((ordenarPorOrdenVisita_perm stops).map RutaDetalleRec.id)).mpr
        hnodupStops
    rw [generarDias_fresh asig.id (ordenarPorOrdenVisita stops) hnodupOrd
      (diasGeneracion (desde.getD asig.fecha_inicio)
        (asig.fecha_fin.getD (desde.getD asig.fecha_inicio + 30))) st 0
      (diasGeneracion_nodup _ _)
      (by
        intro f _ rd _
        rw [tienePlan, List.any_eq_false]
        intro p hp
        simp only [Bool.not_eq_true]
        rw [beq_eq_false_iff_ne]
        intro heq
        exact hfreshP p hp (by rw [heq])
      )
      (by
        intro f _ rd _
        rw [List.any_eq_false]
        intro k hk
        simp only [Bool.not_eq_true]
        rw [beq_eq_false_iff_ne]
        intro heq
        exact hfreshD k hk (by rw [heq])
      )]
    rw [Except.ok.injEq, Prod.mk.injEq]
    refine ⟨rfl, ?_⟩
    have hlen := (ordenarPorOrdenVisita_perm stops).length_eq
    rw [hlen]
    omega

theorem generar_planificaciones_todas_las_paradas_witness :
    (ordenarPorOrdenVisita [⟨2, 1, true⟩]).Pairwise
        (fun a b => a.orden_visita ≤ b.orden_visita)
    ∧ generarPlanificaciones ⟨3, 5, some 6⟩ [⟨2, 1, true⟩] ⟨[], [], [], []⟩ none
        = .ok (⟨[⟨⟨3, 2, 5⟩, "planificado"⟩, ⟨⟨3, 2, 6⟩, "planificado"⟩],
                [⟨3, 2, 5⟩, ⟨3, 2, 6⟩], [], []⟩, 2) :=
  ⟨(generar_planificaciones_todas_las_paradas ⟨3, 5, some 6⟩ [⟨2, 1, true⟩] ⟨[], [], [], []⟩
      none (by decide) (by simp) (by simp)).2.1,
   (generar_planificaciones_todas_las_paradas ⟨3, 5, some 6⟩ [⟨2, 1, true⟩] ⟨[], [], [], []⟩
      none (by decide) (by simp) (by simp)).2.2 (by decide)⟩

/-- Every `DetallePlanificacion` row references an existing plan (the FK
invariant the database maintains). -/
def detallesRespaldados (st : Almacen) : Prop :=
  ∀ k ∈ st.detallesPlanificacion, ∃ p ∈ st.planificaciones, p.key = k

theorem generarDia_frame (asig fecha : Nat) (stops : List RutaDetalleRec) :
    ∀ (st : Almacen) (n : Nat), detallesRespaldados st →
      ∃ nuevos : List Planificacion,
        (generarDia asig fecha stops (st, n)).1.planificaciones
            = st.planificaciones ++ nuevos
        ∧ (generarDia asig fecha stops (st, n)).1.detallesPlanificacion
            = st.detallesPlanificacion ++ nuevos.map Planificacion.key
        ∧ (generarDia asig fecha stops (st, n)).1.ventas = st.ventas
        ∧ (generarDia asig fecha stops (st, n)).1.cargas = st.cargas
        ∧ (generarDia asig fecha stops (st, n)).2 = n + nuevos.length
        ∧ detallesRespaldados (generarDia asig fecha stops (st, n)).1 := by
  induction stops with
  | nil =>
    intro st n hwf
    refine ⟨[], ?_, ?_, rfl, rfl, rfl, hwf⟩
    · show st.planificaciones = _
      rw [List.append_nil]
    · show st.detallesPlanificacion = _
      rw [List.map_nil, List.append_nil]
  | cons x resto ih =>
    intro st n hwf
    rw [generarDia_cons]
    by_cases hx : tienePlan st ⟨asig, x.id, fecha⟩ = true
    · rw [if_pos hx]
      exact ih st n hwf
    · rw [if_neg hx]
      have hDet : (getOrCreateDetallePlan
          { st with planificaciones :=
              st.planificaciones ++ [⟨⟨asig, x.id, fecha⟩, "planificado"⟩] }
          ⟨asig, x.id, fecha⟩).1 =
          { st with
              planificaciones := st.planificaciones ++ [⟨⟨asig, x.id, fecha⟩, "planificado"⟩],
              detallesPlanificacion := st.detallesPlanificacion ++ [⟨asig, x.id, fecha⟩] } := by
        unfold getOrCreateDetallePlan
        rw [if_neg (by
          show ¬(st.detallesPlanificacion.any
            (fun d => d == (⟨asig, x.id, fecha⟩ : PlanKey))) = true
          rw [Bool.not_eq_true, List.any_eq_false]
          intro k hk
          simp only [Bool.not_eq_true]
          rw [beq_eq_false_iff_ne]
          intro heq
          subst heq
          obtain ⟨p, hp, hpk⟩ := hwf _ hk
          apply hx
          rw [tienePlan, List.any_eq_true]
          exact ⟨p, hp, by rw [hpk]; exact beq_self_eq_true _⟩)]
      rw [hDet]
      have hwf2 : detallesRespaldados
          { st with
              planificaciones := st.planificaciones ++ [⟨⟨asig, x.id, fecha⟩, "planificado"⟩],
              detallesPlanificacion := st.detallesPlanificacion ++ [⟨asig, x.id, fecha⟩] } := by
        intro k hk
        rcases List.mem_append.mp hk with hk | hk
        · obtain ⟨p, hp, hpk⟩ := hwf k hk
          exact ⟨p, List.mem_append_left _ hp, hpk⟩
        · rw [List.mem_singleton] at hk
          subst hk
          exact ⟨⟨⟨asig, x.id, fecha⟩, "planificado"⟩,
            List.mem_append_right _ (List.mem_singleton_self _), rfl⟩
      obtain ⟨nuevos2, hpl, hdet, hven, hcar, hcnt, hwf3⟩ := ih _ (n + 1) hwf2
      refine ⟨⟨⟨asig, x.id, fecha⟩, "planificado"⟩ :: nuevos2, ?_, ?_, hven, hcar, ?_, hwf3⟩
      · rw [hpl]
        show (st.planificaciones ++ [⟨⟨asig, x.id, fecha⟩, "planificado"⟩]) ++ nuevos2 = _
        rw [List.append_assoc]
        rfl
      · rw [hdet]
        show (st.detallesPlanificacion ++ [⟨asig, x.id, fecha⟩]) ++ nuevos2.map Planificacion.key = _
        rw [List.append_assoc]
        rfl
      · rw [hcnt, List.length_cons]
        omega

theorem generarDias_frame (asig : Nat) (stops : List RutaDetalleRec) :
    ∀ (dias : List Nat) (st : Almacen) (n : Nat), detallesRespaldados st →
      ∃ nuevos : List Planificacion,
        (generarDias asig stops dias (st, n)).1.planificaciones
            = st.planificaciones ++ nuevos
        ∧ (generarDias asig stops dias (st, n)).1.detallesPlanificacion
            = st.detallesPlanificacion ++ nuevos.map Planificacion.key
        ∧ (generarDias asig stops dias (st, n)).1.ventas = st.ventas
        ∧ (generarDias asig stops dias (st, n)).1.cargas = st.cargas
        ∧ (generarDias asig stops dias (st, n)).2 = n + nuevos.length
        ∧ detallesRespaldados (generarDias asig stops dias (st, n)).1 := by
  intro dias
  induction dias with
  | nil =>
    intro st n hwf
    refine ⟨[], ?_, ?_, rfl, rfl, rfl, hwf⟩
    · show st.planificaciones = _
      rw [List.append_nil]
    · show st.detallesPlanificacion = _
      rw [List.map_nil, List.append_nil]
  | cons f resto ih =>
    intro st n hwf
    rcases hgd : generarDia asig f stops (st, n) with ⟨st1, n1⟩
    rw [show generarDias asig stops (f :: resto) (st, n)
        = generarDias asig stops resto (generarDia asig f stops (st, n)) from rfl, hgd]
    obtain ⟨nuevos1, hpl1, hdet1, hven1, hcar1, hcnt1, hwf1⟩ :=
      generarDia_frame asig f stops st n hwf
    rw [hgd] at hpl1 hdet1 hven1 hcar1 hcnt1 hwf1
    obtain ⟨nuevos2, hpl2, hdet2, hven2, hcar2, hcnt2, hwf2⟩ := ih st1 n1 hwf1
    refine ⟨nuevos1 ++ nuevos2, ?_, ?_, ?_, ?_, ?_, hwf2⟩
    · rw [hpl2, hpl1, List.append_assoc]
    · rw [hdet2, hdet1, List.map_append, List.append_assoc]
    · rw [hven2, hven1]
    · rw [hcar2, hcar1]
    · rw [hcnt2, List.length_append]
      have hn1 : n1 = n + nuevos1.length := hcnt1
      omega

/-- C7 counterexample: the generator eagerly creates a `DetallePlanificacion`
row for the newly created plan, contradicting the claim that no VisitRecord is
created eagerly by a generation run. -/
theorem generar_detalle_eager_contra :
    (generarPlanificaciones ⟨1, 0, some 0⟩ [⟨4, 1, true⟩] ⟨[], [], [], []⟩ none
      = .ok (⟨[⟨⟨1, 4, 0⟩, "planificado"⟩], [⟨1, 4, 0⟩], [], []⟩, 1))
    ∧ ([⟨1, 4, 0⟩] : List PlanKey) ≠ [] :=
  ⟨rfl, by decide⟩

/-- C7 (amended): a generation run touches only the `Planificacion` and
`DetallePlanificacion` tables: every other table (here `ventas`, `cargas`) is
unchanged and pre-existing rows are preserved; and — contrary to the lazy-only
claim — each newly created plan eagerly receives exactly one
`DetallePlanificacion` row, the new plans being counted by the returned
number. (The daily-agenda view still get-or-creates a missing
`DetallePlanificacion` lazily for plans that lack one.) -/
theorem generar_planificaciones_frame (asig : AsignacionRec) (stops : List RutaDetalleRec)
    (st : Almacen) (desde : Option Nat) (st1 : Almacen) (n : Nat)
    (hwf : ∀ k ∈ st.detallesPlanificacion, ∃ p ∈ st.planificaciones, p.key = k)
    (h : generarPlanificaciones asig stops st desde = .ok (st1, n)) :
    st1.ventas = st.ventas ∧ st1.cargas = st.cargas
    ∧ ∃ nuevos : List Planificacion,
        st1.planificaciones = st.planificaciones ++ nuevos
        ∧ st1.detallesPlanificacion = st.detallesPlanificacion ++ nuevos.map Planificacion.key
        ∧ n = nuevos.length := by
  rw [generarPlanificaciones_eq] at h
  by_cases hempty : stops.isEmpty = true
  · rw [if_pos hempty] at h; cases h
  · rw [if_neg hempty] at h
    simp only [Except.ok.injEq] at h
    obtain ⟨nuevos, hpl, hdet, hven, hcar, hcnt, -⟩ :=
      generarDias_frame asig.id (ordenarPorOrdenVisita stops)
        (diasGeneracion (desde.getD asig.fecha_inicio)
          (asig.fecha_fin.getD (desde.getD asig.fecha_inicio + 30))) st 0 hwf
    rw [h] at hpl hdet hven hcar hcnt
    exact ⟨hven, hcar, nuevos, hpl, hdet, by omega⟩

theorem generar_planificaciones_frame_witness :
    (⟨[⟨⟨1, 4, 0⟩, "planificado"⟩], [⟨1, 4, 0⟩], [], []⟩ : Almacen).ventas
        = (⟨[], [], [], []⟩ : Almacen).ventas
    ∧ (⟨[⟨⟨1, 4, 0⟩, "planificado"⟩], [⟨1, 4, 0⟩], [], []⟩ : Almacen).cargas
        = (⟨[], [], [], []⟩ : Almacen).cargas
    ∧ (⟨[⟨⟨1, 4, 0⟩, "planificado"⟩], [⟨1, 4, 0⟩], [], []⟩ : Almacen).detallesPlanificacion
        = (⟨[], [], [], []⟩ : Almacen).detallesPlanificacion ++
          ([(⟨⟨1, 4, 0⟩, "planificado"⟩ : Planificacion)]).map Planificacion.key
    ∧ 1 = ([(⟨⟨1, 4, 0⟩, "planificado"⟩ : Planificacion)]).length := by
  obtain ⟨hven, hcar, nuevos, hpl, hdet, hcnt⟩ :=
    generar_planificaciones_frame ⟨1, 0, some 0⟩ [⟨4, 1, true⟩] ⟨[], [], [], []⟩ none
      ⟨[⟨⟨1, 4, 0⟩, "planificado"⟩], [⟨1, 4, 0⟩], [], []⟩ 1 (by simp) rfl
  rw [show ((⟨[], [], [], []⟩ : Almacen).planificaciones ++ nuevos) = nuevos from
    List.nil_append nuevos] at hpl
  subst hpl
  exact ⟨hven, hcar, hdet, hcnt⟩

/-! ### planificacion/views.py — iniciar_visita, finalizar_visita -/

/-- The visit-lifecycle fields of one `DetallePlanificacion` row. The photo and
geolocation fields set by the start form are independent of the state machine
and are kept out of this record (see `validar_ubicacion` below for the
geofence computation). -/
structure VisitaDetalle where
  planificacion : Nat
  estado : String
  hora_llegada : Option Nat
  hora_salida : Option Nat
  observaciones : String
deriving DecidableEq

/-- Outcome of `iniciar_visita`. `yaActiva i` is the redirect to
`dentro_visita` for the already-open record at index `i`; `visitaIniciada i`
is the success redirect after stamping the arrival. -/
inductive IniciarSalida where
  | sinPermiso
  | yaActiva (idx : Nat)
  | yaVisitado
  | visitaIniciada (idx : Nat)
deriving DecidableEq

/-- Outcome of `finalizar_visita`. -/
inductive FinalizarSalida where
  | sinPermiso
  | noEncontrada
  | noActiva
  | finalizada
deriving DecidableEq

/-- `DetallePlanificacion.objects.get_or_create(planificacion=...)` as run by
the visit views (planificacion/views.py lines 167-171): returns the table,
the index of the row for this plan and the row itself, creating a fresh
`pendiente` row when none exists. Row ids are list positions. -/
def getOrCreateDetalleVisita (detalles : List VisitaDetalle) (plan : Nat) :
    List VisitaDetalle × Nat × VisitaDetalle :=
  match detalles.enum.find? (fun p => p.2.planificacion == plan) with
  | some (i, d) => (detalles, i, d)
  | none =>
    (detalles ++ [⟨plan, "pendiente", none, none, ""⟩], detalles.length,
     ⟨plan, "pendiente", none, none, ""⟩)

/-- `iniciar_visita` (planificacion/views.py lines 151-224) on a POST with a
valid form: permission checks, get-or-create of the visit record, then the
state checks — an open visit (arrival stamped, no departure) redirects to the
same record; an already departed visited record is rejected; otherwise the
arrival time is stamped and the estado becomes `visitado`. -/
def iniciarVisita (esVendedor esAsignado : Bool) (detalles : List VisitaDetalle)
    (plan : Nat) (ahora : Nat) : List VisitaDetalle × IniciarSalida :=
  if esVendedor = false then (detalles, .sinPermiso)
  else if esAsignado = false then (detalles, .sinPermiso)
  else
    match getOrCreateDetalleVisita detalles plan with
    | (detalles1, i, d) =>
      if d.hora_llegada.isSome && d.hora_salida.isNone then (detalles1, .yaActiva i)
      else if d.estado == "visitado" && d.hora_salida.isSome then (detalles1, .yaVisitado)
      else
        (detalles1.set i { d with hora_llegada := some ahora, estado := "visitado" },
         .visitaIniciada i)

/-- `finalizar_visita` (planificacion/views.py lines 288-330) on a POST with a
valid form: permission checks, then the visit must be active (arrival stamped
and no departure) or the request is rejected with a warning and nothing
changes; on success the departure is stamped and non-empty closing notes are
appended to `observaciones`. -/
def finalizarVisita (esVendedor esAsignado : Bool) (detalles : List VisitaDetalle)
    (idx : Nat) (ahora : Nat) (cierre : String) : List VisitaDetalle × FinalizarSalida :=
  if esVendedor = false then (detalles, .sinPermiso)
  else
    match detalles.get? idx with
    | none => (detalles, .noEncontrada)
    | some d =>
      if esAsignado = false then (detalles, .sinPermiso)
      else if d.hora_llegada.isNone || d.hora_salida.isSome then (detalles, .noActiva)
      else
        (detalles.set idx
          { d with
              hora_salida := some ahora,
              observaciones :=
                if cierre.isEmpty then d.observaciones
                else d.observaciones ++ "\n[Cierre] " ++ cierre },
         .finalizada)

/-- C8: ending a visit whose record is not active — no arrival time, or a
departure already stamped — always fails with the not-active warning and
leaves every record unchanged; and starting a visit while the record for that
plan is already open redirects to that same record, leaving the table
unchanged (in particular no second record is created for the plan). -/
theorem visita_maquina_estados (eA : Bool) (detalles : List VisitaDetalle)
    (idx plan ahora : Nat) (cierre : String) (d : VisitaDetalle) (i : Nat)
    (hA : eA = true) :
    (detalles.get? idx = some d → (d.hora_llegada = none ∨ d.hora_salida ≠ none) →
      finalizarVisita true eA detalles idx ahora cierre = (detalles, .noActiva))
    ∧ (detalles.enum.find? (fun p => p.2.planificacion == plan) = some (i, d) →
        d.hora_llegada ≠ none → d.hora_salida = none →
        iniciarVisita true eA detalles plan ahora = (detalles, .yaActiva i)) := by
  subst hA
  constructor
  · intro hget hstate
    unfold finalizarVisita
    rw [hget]
    show (if (d.hora_llegada.isNone || d.hora_salida.isSome) = true
          then (detalles, FinalizarSalida.noActiva)
          else (detalles.set idx
            { d with
                hora_salida := some ahora,
                observaciones :=
                  if cierre.isEmpty then d.observaciones
                  else d.observaciones ++ "\n[Cierre] " ++ cierre },
            FinalizarSalida.finalizada)) = (detalles, FinalizarSalida.noActiva)
    rw [if_pos (by
      rcases hstate with h | h
      · rw [h]; rfl
      · rcases hsal : d.hora_salida with _ | t
        · exact absurd hsal h
        · simp)]
  · intro hfind hll hsal
    unfold iniciarVisita getOrCreateDetalleVisita
    rw [hfind]
    show (if (d.hora_llegada.isSome && d.hora_salida.isNone) = true
          then (detalles, IniciarSalida.yaActiva i)
          else if (d.estado == "visitado" && d.hora_salida.isSome) = true
          then (detalles, IniciarSalida.yaVisitado)
          else (detalles.set i { d with hora_llegada := some ahora, estado := "visitado" },
            IniciarSalida.visitaIniciada i)) = (detalles, IniciarSalida.yaActiva i)
    rw [if_pos (by
      rcases hllega : d.hora_llegada with _ | t
      · exact absurd hllega hll
      · rw [hsal]; rfl)]

theorem visita_maquina_estados_witness :
    finalizarVisita true true [⟨5, "visitado", some 1, some 2, ""⟩] 0 9 "fin"
      = ([⟨5, "visitado", some 1, some 2, ""⟩], .noActiva)
    ∧ iniciarVisita true true [⟨6, "visitado", some 1, none, ""⟩] 6 9
      = ([⟨6, "visitado", some 1, none, ""⟩], .yaActiva 0) :=
  ⟨(visita_maquina_estados true [⟨5, "visitado", some 1, some 2, ""⟩] 0 0 9 "fin"
      ⟨5, "visitado", some 1, some 2, ""⟩ 0 rfl).1 rfl (Or.inr (by decide)),
   (visita_maquina_estados true [⟨6, "visitado", some 1, none, ""⟩] 0 6 9 ""
      ⟨6, "visitado", some 1, none, ""⟩ 0 rfl).2 rfl (by decide) rfl⟩

/-! ### core/utils.py — calcular_distancia_haversine, validar_ubicacion.
Coordinates are real numbers; Python floats are modelled by `ℝ`, so these
definitions are noncomputable and the geometry is exact rather than rounded. -/

open Classical in
/-- Python's `math.atan2(y, x)` with its full sign convention. -/
noncomputable def atan2 (y x : ℝ) : ℝ :=
  if 0 < x then Real.arctan (y / x)
  else if x < 0 then
    (if 0 ≤ y then Real.arctan (y / x) + Real.pi else Real.arctan (y / x) - Real.pi)
  else if 0 < y then Real.pi / 2
  else if y < 0 then -(Real.pi / 2)
  else 0

/-- `calcular_distancia_haversine` (core/utils.py lines 39-66): haversine
great-circle distance in metres over Earth radius 6 371 000 m, with
`math.radians(x) = x * π / 180`. -/
noncomputable def calcular_distancia_haversine (lat1 lon1 lat2 lon2 : ℝ) : ℝ :=
  let R : ℝ := 6371000
  let lat1_rad := lat1 * Real.pi / 180
  let lat2_rad := lat2 * Real.pi / 180
  let delta_lat := (lat2 - lat1) * Real.pi / 180
  let delta_lon := (lon2 - lon1) * Real.pi / 180
  let a := Real.sin (delta_lat / 2) ^ 2 +
    Real.cos lat1_rad * Real.cos lat2_rad * Real.sin (delta_lon / 2) ^ 2
  let c := 2 * atan2 (Real.sqrt a) (Real.sqrt (1 - a))
  R * c

/-- Python truthiness of one coordinate as tested by
`if not all([...])`: `None` and `0` are both falsy. -/
def coordFalsy (c : Option ℝ) : Prop := c = none ∨ c = some 0

theorem coordFalsy_some_iff (x : ℝ) : coordFalsy (some x) ↔ x = 0 := by
  unfold coordFalsy
  simp

open Classical in
/-- `validar_ubicacion` (core/utils.py lines 69-89): when any of the four
coordinates is falsy (`None` or `0`) the result is `(False, None)`; otherwise
the haversine distance is computed and the result is
`(distancia ≤ margen, distancia)`. -/
noncomputable def validar_ubicacion (lat_cliente lon_cliente lat_visita lon_visita : Option ℝ)
    (margen : ℝ) : Bool × Option ℝ :=
  if coordFalsy lat_cliente ∨ coordFalsy lon_cliente ∨
     coordFalsy lat_visita ∨ coordFalsy lon_visita then
    (false, none)
  else
    let distancia := calcular_distancia_haversine (lat_cliente.getD 0) (lon_cliente.getD 0)
      (lat_visita.getD 0) (lon_visita.getD 0)
    (decide (distancia ≤ margen), some distancia)

/-- C10: `validar_ubicacion` returns `(False, None)` whenever one of the four
coordinates is `None` or exactly `0` (Python falsiness, so a legitimate zero
coordinate counts as missing); otherwise it returns the pair of the geofence
verdict `distancia ≤ margen` and the haversine distance over Earth radius
6 371 000 m between the two points. -/
theorem validar_ubicacion_spec (lc lo lv lw : Option ℝ) (m : ℝ) :
    ((coordFalsy lc ∨ coordFalsy lo ∨ coordFalsy lv ∨ coordFalsy lw) →
      validar_ubicacion lc lo lv lw m = (false, none))
    ∧ (∀ a b c d : ℝ, lc = some a → lo = some b → lv = some c → lw = some d →
        a ≠ 0 → b ≠ 0 → c ≠ 0 → d ≠ 0 →
        (validar_ubicacion lc lo lv lw m).2 = some (calcular_distancia_haversine a b c d)
        ∧ ((validar_ubicacion lc lo lv lw m).1 = true ↔
            calcular_distancia_haversine a b c d ≤ m)) := by
  constructor
  · intro h
    unfold validar_ubicacion
    rw [if_pos h]
  · intro a b c d h1 h2 h3 h4 hn1 hn2 hn3 hn4
    subst h1; subst h2; subst h3; subst h4
    unfold validar_ubicacion
    rw [if_neg (by
      simp only [coordFalsy_some_iff]
      push_neg
      exact ⟨hn1, hn2, hn3, hn4⟩)]
    constructor
    · rfl
    · exact ⟨of_decide_eq_true, decide_eq_true⟩

theorem validar_ubicacion_spec_witness :
    validar_ubicacion none (some 1) (some 1) (some 1) 100 = (false, none)
    ∧ (validar_ubicacion (some 1) (some 1) (some 1) (some 1) 100).2 =
        some (calcular_distancia_haversine 1 1 1 1) :=
  ⟨(validar_ubicacion_spec none (some 1) (some 1) (some 1) 100).1 (Or.inl (Or.inl rfl)),
   ((validar_ubicacion_spec (some 1) (some 1) (some 1) (some 1) 100).2 1 1 1 1
      rfl rfl rfl rfl one_ne_zero one_ne_zero one_ne_zero one_ne_zero).1⟩

end ControlRutas
